import Mathlib

/-
  Verification of the MEM integrand engine (src/src/Integrand.cpp) against
  its natural-language specification.  The C++ code is shallowly embedded:
  doubles become real numbers, vectors become structures of reals,
  STL vectors become lists, in-out flags become explicit result components.
-/

namespace MEMSpec

/-! ## Four-vectors and three-vectors -/

/-- A four-momentum (TLorentzVector): spatial components and energy. -/
structure LV where
  px : ℝ
  py : ℝ
  pz : ℝ
  en : ℝ

/-- A spatial three-vector (TVector3). -/
structure V3 where
  x : ℝ
  y : ℝ
  z : ℝ

/-- Euclidean magnitude of a three-vector given by components. -/
noncomputable def vecMag3 (x y z : ℝ) : ℝ := Real.sqrt (x ^ 2 + y ^ 2 + z ^ 2)

/-- Magnitude of the spatial part of a four-vector (TLorentzVector::Vect().Mag()). -/
noncomputable def LV.vecMag (v : LV) : ℝ := vecMag3 v.px v.py v.pz

/-- TLorentzVector::Beta(): spatial magnitude divided by energy. -/
noncomputable def LV.beta (v : LV) : ℝ := v.vecMag / v.en

/-- Cosine of the angle between the spatial part of a four-vector and a
three-vector: dot product over the product of magnitudes.  This is
TMath::Cos(p4.Angle(e)) for non-degenerate vectors. -/
noncomputable def cosAngle (v : LV) (e : V3) : ℝ :=
  (v.px * e.x + v.py * e.y + v.pz * e.z) / (v.vecMag * vecMag3 e.x e.y e.z)

/-! ## The kinematic solver (Integrand.cpp lines 1945-2037)

`solve` receives a parent four-momentum, a squared-mass splitting DM2, a
daughter mass M, a direction and a target energy; it returns the daughter
energy together with a reject flag (the C++ out-parameter `accept` being
set to -1).  The sentinel returned on failure is
numeric_limits<double>::max(). -/

/-- The no-solution sentinel, numeric_limits<double>::max() = (2^53-1)*2^971. -/
def noSolution : ℝ := (2 ^ 53 - 1) * 2 ^ 971

/-- Coefficient a of the solver before the massive-branch rescaling:
a = DM2 / p4.E  (line 1947). -/
noncomputable def solveA (p4 : LV) (DM2 : ℝ) : ℝ := DM2 / p4.en

/-- Coefficient b of the solver before the massive-branch rescaling:
b = cos(angle(p4, e))  (line 1948). -/
noncomputable def solveB (p4 : LV) (e : V3) : ℝ := cosAngle p4 e

/-- Larger dimensionless root g+ = (a + |b| sqrt(a^2+b^2-1)) / (1-b^2)  (line 1983). -/
noncomputable def gP (a b : ℝ) : ℝ := (a + |b| * Real.sqrt (a ^ 2 + b ^ 2 - 1)) / (1 - b ^ 2)

/-- Smaller dimensionless root g- = (a - |b| sqrt(a^2+b^2-1)) / (1-b^2)  (line 1984). -/
noncomputable def gM (a b : ℝ) : ℝ := (a - |b| * Real.sqrt (a ^ 2 + b ^ 2 - 1)) / (1 - b ^ 2)

/-- Discriminant used to choose between the roots:
discr = a^2 + b^2 - a^2 b^2 - 1  (line 1969). -/
def discrD (a b : ℝ) : ℝ := a ^ 2 + b ^ 2 - a ^ 2 * b ^ 2 - 1

/-- The smaller root after removal of an unphysical value:
if g- is below 1 it is replaced by g+  (line 1998). -/
noncomputable def gMrep (a b : ℝ) : ℝ := if gM a b < 1 then gP a b else gM a b

/-- Massive-daughter branch of solve (lines 1961-2037), on the rescaled
dimensionless coefficients a and b.  Returns (value, reject flag). -/
noncomputable def solveMassive (a b M target : ℝ) : ℝ × Bool :=
  if a ^ 2 + b ^ 2 - 1 < 0 then (noSolution, true)
  else if gP a b < 1 then (noSolution, true)
  else if 0 < b then
    (if discrD a b < 0 then
      (if |target - gP a b| < |target - gMrep a b| then gP a b * M else gMrep a b * M)
     else gP a b * M, false)
  else if 0 < discrD a b then (gMrep a b * M, false)
  else (noSolution, true)

/-- The dimensionless coefficient a of the massive branch: a /= M
(line 1963). -/
noncomputable def solveCoeffA (p4 : LV) (DM2 M : ℝ) : ℝ := solveA p4 DM2 / M

/-- The velocity-rescaled coefficient b of the massive branch:
b *= p4.Beta() (line 1964). -/
noncomputable def solveCoeffB (p4 : LV) (e : V3) : ℝ := solveB p4 e * p4.beta

/-- MEM::Integrand::solve (lines 1945-2037).  The massless branch (daughter
mass below 1e-3) uses a = DM2 / p4.E and b = cos(angle) directly; the
massive branch rescales a by 1/M and b by the parent velocity. -/
noncomputable def solve (p4 : LV) (DM2 M : ℝ) (e : V3) (target : ℝ) : ℝ × Bool :=
  if M < 1 / 1000 then
    (if solveB p4 e < 1 then (solveA p4 DM2 / (1 - solveB p4 e), false)
     else (noSolution, true))
  else solveMassive (solveCoeffA p4 DM2 M) (solveCoeffB p4 e) M target

/-- Modelled from the spec claim for C3 (not from the source): the
massless closed form with the claimed coefficients a = DM2 / (P.E * M)
and b = cos(angle(P, e)) * P.beta. -/
noncomputable def specMasslessValue (p4 : LV) (DM2 M : ℝ) (e : V3) : ℝ :=
  (DM2 / (p4.en * M)) / (1 - cosAngle p4 e * p4.beta)

/-- Modelled from the spec claim for C2 (not from the source): whenever
both dimensionless roots are physical and the discriminant is negative,
solve succeeds and returns whichever of g+ * M and g- * M is numerically
closer to the supplied target energy. -/
def specClosestRootClaim (p4 : LV) (DM2 M : ℝ) (e : V3) (target : ℝ) : Prop :=
  (1 ≤ gM (solveCoeffA p4 DM2 M) (solveCoeffB p4 e) ∧
      1 ≤ gP (solveCoeffA p4 DM2 M) (solveCoeffB p4 e) ∧
      discrD (solveCoeffA p4 DM2 M) (solveCoeffB p4 e) < 0) →
    solve p4 DM2 M e target =
      (if |target - gP (solveCoeffA p4 DM2 M) (solveCoeffB p4 e) * M| <
          |target - gM (solveCoeffA p4 DM2 M) (solveCoeffB p4 e) * M|
       then gP (solveCoeffA p4 DM2 M) (solveCoeffB p4 e) * M
       else gM (solveCoeffA p4 DM2 M) (solveCoeffB p4 e) * M, false)

/-! ## Phase-space point extension (Integrand.cpp lines 1096-1129)

extend_PS and extend_PS_nodebug clamp the supplied energy to the mass and
build the four-vector dir * sqrt(E_phys^2 - M^2) with energy E_phys. -/

/-- A generated particle four-vector as stored into the phase-space point. -/
structure GenPart4 where
  px : ℝ
  py : ℝ
  pz : ℝ
  en : ℝ

/-- Core of MEM::Integrand::extend_PS (lines 1101-1103):
E_phys = max(E, M), P = sqrt(E_phys^2 - M^2), four-vector (dir * P, E_phys). -/
noncomputable def extend_PS (E M : ℝ) (dir : V3) : GenPart4 :=
  ⟨dir.x * Real.sqrt ((max E M) ^ 2 - M ^ 2),
   dir.y * Real.sqrt ((max E M) ^ 2 - M ^ 2),
   dir.z * Real.sqrt ((max E M) ^ 2 - M ^ 2),
   max E M⟩

/-- Core of MEM::Integrand::extend_PS_nodebug (lines 1126-1128); the same
computation as extend_PS. -/
noncomputable def extend_PS_nodebug (E M : ℝ) (dir : V3) : GenPart4 :=
  ⟨dir.x * Real.sqrt ((max E M) ^ 2 - M ^ 2),
   dir.y * Real.sqrt ((max E M) ^ 2 - M ^ 2),
   dir.z * Real.sqrt ((max E M) ^ 2 - M ^ 2),
   max E M⟩

/-! ## The probability function (Integrand.cpp lines 1447-1497)

probability(x, n_perm) first returns 1 when the integrand code is zero,
then builds the phase-space point; a negative accept code makes it return
0 and increment n_skip.  Otherwise it multiplies the dimensional constant,
the transfer weight (which also updates the out-of-range count) and,
unless suppressed, the matrix element.  The externally computed pieces
are parameters of the embedding. -/

/-- MEM::Integrand::probability (lines 1447-1497) as a function of the
integrand code, the accept code returned by create_PS, the suppression
threshold, the three externally computed factors, and the current n_skip
counter.  Returns the probability value and the new n_skip. -/
def probability_step (intCode psAccept tfSuppress : Int) (constantsVal : ℝ)
    (transferVal : ℝ × Int) (matrixVal : ℝ) (nSkip : ℕ) : ℝ × ℕ :=
  if intCode = 0 then (1, nSkip)
  else if psAccept < 0 then (0, nSkip + 1)
  else if tfSuppress ≠ 0 ∧ tfSuppress ≤ transferVal.2 then
    (0, nSkip)
  else (1 * constantsVal * transferVal.1 * matrixVal, nSkip)

/-! ## The integrand evaluation Eval (Integrand.cpp lines 884-920)

Eval loops n_perm over the permutations retained for the assumption; in
per-permutation integration mode (cfg.perm_int) it skips every index other
than this_perm; otherwise it accumulates probability(x, n_perm) times the
cached constant perm_const_assumption[n_perm].  The probability function at
the fixed coordinate vector x is abstracted as prob; the constant list has
one entry per retained permutation, so the loop bound is its length.  (The
n_calls increment on line 911 does not affect the returned value.) -/

/-- The accumulation loop of MEM::Integrand::Eval (lines 895-909):
`evalLoop prob consts permInt thisPerm n` is the accumulator after the
first n iterations. -/
def evalLoop (prob : ℕ → ℝ) (consts : List ℝ) (permInt : Bool) (thisPerm : ℕ) : ℕ → ℝ
  | 0 => 0
  | n + 1 => evalLoop prob consts permInt thisPerm n +
      (if permInt = true ∧ n ≠ thisPerm then 0 else prob n * consts.getD n 0)

/-- MEM::Integrand::Eval (lines 884-920): the loop run over all retained
permutations. -/
def Eval (prob : ℕ → ℝ) (consts : List ℝ) (permInt : Bool) (thisPerm : ℕ) : ℝ :=
  evalLoop prob consts permInt thisPerm consts.length

/-! ## NaN guards (Integrand.cpp lines 1532-1537, 1567-1571, 1694-1699)

A possibly-NaN double is embedded as Option ℝ, with none standing for NaN.
matrix and matrix_nodecay clamp a NaN product to 0 and return, leaving
error_code untouched; transfer clamps to 0 and sets error_code = 1. -/

/-- The NaN check at the end of MEM::Integrand::matrix and matrix_nodecay
(lines 1532-1537 and 1567-1571): a NaN value is replaced by 0; the
run-level error code is not modified.  Returns (value, error code). -/
def matrix_nan_check (m : Option ℝ) (errorCode : ℕ) : ℝ × ℕ :=
  match m with
  | none => (0, errorCode)
  | some v => (v, errorCode)

/-- The NaN check at the end of MEM::Integrand::transfer (lines 1694-1699):
a NaN value is replaced by 0 and the run-level error code is set to 1. -/
def transfer_nan_check (w : Option ℝ) (errorCode : ℕ) : ℝ × ℕ :=
  match w with
  | none => (0, 1)
  | some v => (v, errorCode)

/-! ## Permutation filtering in make_assumption (Integrand.cpp lines 557-584)

For each enumerated permutation, the slots designated lost by the caller
are first forced to the sentinel -1: the lost list holds pairs of
phase-space-variable codes (cosTheta first, then phi), and for the entries
at even positions the slot index is (code - 1) / 3 (lines 567-571).  A
permutation is then retained only when its number of negative entries
equals lost.size() / 2 and the pruning strategies accept it (lines
576-580); accept_perm is abstracted as a predicate parameter. -/

/-- The forcing loop of make_assumption (lines 567-571): walk the lost
list with a position counter, and for even positions set slot
(code - 1) / 3 of the permutation to -1. -/
def forceLost (count : ℕ) (lost : List ℕ) (perm : List Int) : List Int :=
  match lost with
  | [] => perm
  | l :: ls =>
      forceLost (count + 1) ls
        (if count % 2 = 0 then perm.set ((l - 1) / 3) (-1) else perm)

/-- The slot indexes written by forceLost: the (code - 1) / 3 values of the
lost entries at even positions. -/
def evenLostSlots (count : ℕ) (lost : List ℕ) : List ℕ :=
  match lost with
  | [] => []
  | l :: ls =>
      if count % 2 = 0 then (l - 1) / 3 :: evenLostSlots (count + 1) ls
      else evenLostSlots (count + 1) ls

/-- The sentinel count of make_assumption (lines 576-577): the number of
negative entries of a permutation. -/
def countNegatives (perm : List Int) : ℕ :=
  (perm.filter (fun v => decide (v < 0))).length

/-- The permutation list stored into perm_indexes_assumption by
make_assumption (lines 560-584): force the designated slots of every
enumerated permutation to -1, then keep the permutations whose sentinel
count equals the assumed lost count and which pass the pruning predicate. -/
def makeAssumptionPerms (accept : List Int → Bool) (lost : List ℕ)
    (perms : List (List Int)) : List (List Int) :=
  (perms.map (forceLost 0 lost)).filter
    (fun p => decide (countNegatives p = lost.length / 2) && accept p)

/-! ## Permutation constants (Integrand.cpp lines 783-881)

get_permutation_constants multiplies, for the current final state, the
resolution energy-window widths of the jets assigned to the slots whose
energies are free integration variables: for LH the q1 slot (position 0,
q window) and the b slot (position 4, b window), plus the bbar slot
(position 5, b window) under the TTBB hypothesis; for LL the b slot
(position 2) plus bbar (position 3) under TTBB; for HH the q1, q2, b
slots (positions 0, 3, 6) plus bbar (position 7) under TTBB.  The slot
positions are the map_to_part values of fill_map (lines 235-310). -/

/-- Event topology (MEM::FinalState). -/
inductive FinalState
  | LH
  | LL
  | HH
  | TTH
  | Undefined
deriving DecidableEq

/-- Physics hypothesis under test (MEM::Hypothesis). -/
inductive Hypothesis
  | TTH
  | TTBB
  | Undefined
deriving DecidableEq

/-- The four resolution energy-window observables of an observed jet
(Observable::E_LOW_Q, E_HIGH_Q, E_LOW_B, E_HIGH_B). -/
structure Jet where
  eLowQ : ℝ
  eHighQ : ℝ
  eLowB : ℝ
  eHighB : ℝ

/-- Light-quark resolution window width E_HIGH_Q - E_LOW_Q. -/
def widthQ (j : Jet) : ℝ := j.eHighQ - j.eLowQ

/-- Bottom-quark resolution window width E_HIGH_B - E_LOW_B. -/
def widthB (j : Jet) : ℝ := j.eHighB - j.eLowB

/-- The jet obs_jets[perm[pos]] looked up by get_permutation_constants.
C++ indexes directly; out-of-range lookups (never taken by the callers)
default to a zero-window jet. -/
def jetAt (jets : List Jet) (perm : List Int) (pos : ℕ) : Jet :=
  jets.getD (perm.getD pos 0).toNat ⟨0, 0, 0, 0⟩

/-- MEM::Integrand::get_permutation_constants (lines 783-881). -/
def getPermutationConstants (fs : FinalState) (hy : Hypothesis)
    (jets : List Jet) (perm : List Int) : ℝ :=
  match fs with
  | FinalState.LH =>
      widthQ (jetAt jets perm 0) * widthB (jetAt jets perm 4) *
        (if hy = Hypothesis.TTBB then widthB (jetAt jets perm 5) else 1)
  | FinalState.LL =>
      widthB (jetAt jets perm 2) *
        (if hy = Hypothesis.TTBB then widthB (jetAt jets perm 3) else 1)
  | FinalState.HH =>
      widthQ (jetAt jets perm 0) * widthQ (jetAt jets perm 3) *
        widthB (jetAt jets perm 6) *
        (if hy = Hypothesis.TTBB then widthB (jetAt jets perm 7) else 1)
  | _ => 1

/-- Modelled from the spec claim for C6 (not from the source): the product,
over all six LH quark-level slots assigned to a real jet (entry not the
sentinel), of that jet's window width, with the q window for the two
light-quark slots 0 and 1 and the b window for slots 2 to 5. -/
def specClaimedConstLH (jets : List Jet) (perm : List Int) : ℝ :=
  ((List.range 6).map (fun i =>
    if 0 ≤ perm.getD i (-1) then
      (if 2 ≤ i then widthB (jetAt jets perm i) else widthQ (jetAt jets perm i))
    else 1)).prod

/-! ## Assumption admissibility (Integrand.cpp lines 527-550)

test_assumption rejects when observed jets plus assumed lost objects are
fewer than the required quark slots; make_assumption then returns at once,
before touching the permutation list, the integrator or the output. -/

/-- MEM::Integrand::test_assumption (lines 527-535): true when the number
of observed jets plus lost objects reaches naive_jet_counting. -/
def test_assumption (nJets lost naive : ℕ) : Bool :=
  !(decide (nJets + lost < naive))

/-- Result record fields of MEMOutput set by make_assumption. -/
structure MEMOutput where
  p : ℝ
  pErr : ℝ
  chi2 : ℝ

/-- Early-return structure of MEM::Integrand::make_assumption (line 550):
when the assumption fails test_assumption, the state (output record and
assumption permutation list) is returned untouched; otherwise the rest of
the computation (abstracted as a state transformer) runs. -/
def make_assumption_early (nJets naive : ℕ) (lost : List ℕ)
    (rest : MEMOutput × List (List Int) → MEMOutput × List (List Int))
    (st : MEMOutput × List (List Int)) : MEMOutput × List (List Int) :=
  if test_assumption nJets (lost.length / 2) naive then rest st else st

/-! ## Theorems -/

/-- C10: Every four-momentum placed into the phase-space point by extend_PS
or extend_PS_nodebug has energy at least the particle mass, and the
momentum radicand E_phys^2 - M^2 is nonnegative (real momentum), because
the supplied energy is clamped to max(E, M) first; this holds for any
supplied energy, including a solver sentinel or a value below the rest
mass. -/
theorem extend_ps_energy_clamped (E M : ℝ) (dir : V3) (hM : 0 ≤ M) :
    (M ≤ (extend_PS E M dir).en ∧ 0 ≤ (max E M) ^ 2 - M ^ 2) ∧
      (extend_PS_nodebug E M dir).en = (extend_PS E M dir).en := by
  refine ⟨⟨le_max_right E M, ?_⟩, rfl⟩
  have h1 : M ≤ max E M := le_max_right E M
  have h2 : M ^ 2 ≤ (max E M) ^ 2 := by
    have := pow_le_pow_left₀ hM h1 2
    simpa using this
  linarith

/-- Witness for C10 at the concrete input E = -5, M = 2 (an energy below
the rest mass): the stored energy is clamped to the mass. -/
theorem extend_ps_energy_clamped_w :
    (0 : ℝ) ≤ 2 ∧ (2 : ℝ) ≤ (extend_PS (-5) 2 ⟨1, 0, 0⟩).en := by
  have h := extend_ps_energy_clamped (-5) 2 ⟨1, 0, 0⟩ (by norm_num)
  exact ⟨by norm_num, h.1.1⟩

/-- C7: Whenever create_PS returns a negative accept code (and the
integrand code is nonzero, so that the phase-space build runs at all),
probability returns exactly 0 and increments n_skip by one; the result
does not depend on the transfer-function or matrix-element values, which
are therefore never folded in. -/
theorem probability_rejected_ps_zero (intCode psAccept tfSuppress : Int)
    (nSkip : ℕ) (h1 : intCode ≠ 0) (h2 : psAccept < 0) :
    ∀ (c : ℝ) (tv : ℝ × Int) (mv : ℝ),
      probability_step intCode psAccept tfSuppress c tv mv nSkip = (0, nSkip + 1) := by
  intro c tv mv
  unfold probability_step
  rw [if_neg h1, if_pos h2]

/-- Witness for C7 at intCode = 1, psAccept = -1, n_skip = 4: the call
returns 0 and n_skip becomes 5, for arbitrary transfer and matrix values. -/
theorem probability_rejected_ps_zero_w :
    (1 : Int) ≠ 0 ∧ (-1 : Int) < 0 ∧
      probability_step 1 (-1) 0 5 (7, 3) 11 4 = (0, 5) := by
  refine ⟨by decide, by decide, ?_⟩
  exact probability_rejected_ps_zero 1 (-1) 0 4 (by decide) (by decide) 5 (7, 3) 11

/-- C8: If observed jets plus assumed lost objects are fewer than the
required quark slots, make_assumption returns immediately: starting from
the zero-initialized output and the empty assumption permutation list,
the state is unchanged no matter what the remainder of the computation
would have done, so the result is zero permutations and zero probability,
error and chi-square. -/
theorem make_assumption_too_few_jets (nJets naive : ℕ) (lost : List ℕ)
    (h : nJets + lost.length / 2 < naive) :
    ∀ rest, make_assumption_early nJets naive lost rest (⟨0, 0, 0⟩, []) =
      (⟨0, 0, 0⟩, []) := by
  intro rest
  unfold make_assumption_early test_assumption
  simp [h]

/-- Witness for C8: 4 observed jets plus 2 assumed lost objects against 8
required slots; the state is untouched even by a remainder that would
overwrite everything. -/
theorem make_assumption_too_few_jets_w :
    4 + ([1, 2, 3, 4] : List ℕ).length / 2 < 8 ∧
      make_assumption_early 4 8 [1, 2, 3, 4]
        (fun _ => (⟨1, 1, 1⟩, [[0]])) (⟨0, 0, 0⟩, []) = (⟨0, 0, 0⟩, []) := by
  refine ⟨by decide, ?_⟩
  exact make_assumption_too_few_jets 4 8 [1, 2, 3, 4] (by decide) _

/-- C9 counterexample: at a NaN matrix-element value with a clear error
code, the code clamps the contribution to 0 but does NOT set the error
flag (matrix and matrix_nodecay return without touching error_code, lines
1532-1537 and 1567-1571), refuting the claim that every NaN in the
matrix-element product sets the run-level error flag. -/
theorem matrix_nan_error_flag_claim_false :
    ¬ ((matrix_nan_check none 0).1 = 0 ∧ (matrix_nan_check none 0).2 ≠ 0) := by
  intro h
  exact h.2 rfl

/-- C9 (amended): a NaN arising in the transfer-function product is
clamped to 0 and sets the run-level error flag to 1; a NaN arising in the
matrix-element product is clamped to 0 but leaves the error flag
unchanged; non-NaN values pass through both checks untouched. -/
theorem nan_guard_behaviour :
    ∀ e : ℕ, matrix_nan_check none e = (0, e) ∧
      transfer_nan_check none e = (0, 1) ∧
      ∀ v : ℝ, matrix_nan_check (some v) e = (v, e) ∧
        transfer_nan_check (some v) e = (v, e) := by
  intro e
  exact ⟨rfl, rfl, fun v => ⟨rfl, rfl⟩⟩

/-- In joint-integration mode the evaluation loop accumulates the partial
sums of probability times permutation constant. -/
lemma evalLoop_false (prob : ℕ → ℝ) (consts : List ℝ) (tp : ℕ) :
    ∀ n, evalLoop prob consts false tp n =
      ∑ i ∈ Finset.range n, prob i * consts.getD i 0
  | 0 => by simp [evalLoop]
  | n + 1 => by
      rw [Finset.sum_range_succ, ← evalLoop_false prob consts tp n]
      simp [evalLoop]

/-- In per-permutation mode the evaluation loop keeps only the selected
permutation's term. -/
lemma evalLoop_true (prob : ℕ → ℝ) (consts : List ℝ) (tp : ℕ) :
    ∀ n, evalLoop prob consts true tp n =
      if tp < n then prob tp * consts.getD tp 0 else 0
  | 0 => by simp [evalLoop]
  | n + 1 => by
      rw [evalLoop, evalLoop_true prob consts tp n]
      by_cases h : n = tp
      · subst h
        simp
      · have h2 : (tp < n + 1) ↔ (tp < n) := by omega
        simp [h, h2]

/-- C1: For every coordinate vector (whose per-permutation probabilities are
abstracted as prob), Eval equals the sum over all retained permutations of
probability times the cached permutation constant; in per-permutation
integration mode the sum is restricted to the single permutation selected
by this_perm. -/
theorem eval_sum_over_permutations (prob : ℕ → ℝ) (consts : List ℝ)
    (permInt : Bool) (thisPerm : ℕ)
    (h : permInt = true → thisPerm < consts.length) :
    Eval prob consts permInt thisPerm =
      if permInt then prob thisPerm * consts.getD thisPerm 0
      else ∑ n ∈ Finset.range consts.length, prob n * consts.getD n 0 := by
  cases permInt with
  | false => simp [Eval, evalLoop_false]
  | true => simp [Eval, evalLoop_true, h rfl]

/-- Witness for C1 with two permutation constants 2 and 3 and probability
function n: per-permutation mode at this_perm = 1 gives 1 * 3; joint mode
gives 0 * 2 + 1 * 3. -/
theorem eval_sum_over_permutations_w :
    Eval (fun n => (n : ℝ)) [2, 3] true 1 = 3 ∧
      Eval (fun n => (n : ℝ)) [2, 3] false 0 = 3 := by
  constructor
  · rw [eval_sum_over_permutations (fun n => (n : ℝ)) [2, 3] true 1
      (fun _ => by simp)]
    norm_num
  · rw [eval_sum_over_permutations (fun n => (n : ℝ)) [2, 3] false 0
      (fun hc => by simp at hc)]
    rw [show ([2, 3] : List ℝ).length = 2 by simp]
    rw [Finset.sum_range_succ, Finset.sum_range_succ]
    norm_num

/-- Setting a list element either stores the new value or leaves the
looked-up position unchanged. -/
lemma getD_set_or (q : List Int) (k j : ℕ) (v : Int) :
    (q.set k v).getD j 0 = v ∨ (q.set k v).getD j 0 = q.getD j 0 := by
  induction q generalizing k j with
  | nil => right; simp
  | cons a as ih =>
    cases k with
    | zero =>
      cases j with
      | zero => left; simp
      | succ j => right; simp
    | succ k =>
      cases j with
      | zero => right; simp
      | succ j => simpa using ih k j

/-- Setting an in-range list element stores the new value there. -/
lemma getD_set_self (q : List Int) (i : ℕ) (v : Int) (h : i < q.length) :
    (q.set i v).getD i 0 = v := by
  induction q generalizing i with
  | nil => simp at h
  | cons a as ih =>
    cases i with
    | zero => simp
    | succ i => simpa using ih i (by simpa using h)

/-- The forcing loop preserves the length of the permutation. -/
lemma forceLost_length (count : ℕ) (lost : List ℕ) (perm : List Int) :
    (forceLost count lost perm).length = perm.length := by
  induction lost generalizing count perm with
  | nil => rfl
  | cons l ls ih =>
    rw [forceLost, ih]
    by_cases hc : count % 2 = 0
    · simp [hc]
    · simp [hc]

/-- Every position of the forced permutation holds the sentinel or its
original value: the forcing loop only ever writes -1. -/
lemma forceLost_getD_or (count : ℕ) (lost : List ℕ) (perm : List Int) (j : ℕ) :
    (forceLost count lost perm).getD j 0 = -1 ∨
      (forceLost count lost perm).getD j 0 = perm.getD j 0 := by
  induction lost generalizing count perm with
  | nil => right; rfl
  | cons l ls ih =>
    rw [forceLost]
    by_cases hc : count % 2 = 0
    · rw [if_pos hc]
      rcases ih (count + 1) (perm.set ((l - 1) / 3) (-1)) with h | h
      · left; exact h
      · rw [h]
        rcases getD_set_or perm ((l - 1) / 3) j (-1) with h2 | h2
        · left; exact h2
        · right; exact h2
    · rw [if_neg hc]
      exact ih (count + 1) perm

/-- Every slot designated lost at an even position of the lost list holds
the sentinel after the forcing loop. -/
lemma forceLost_evenSlot (count : ℕ) (lost : List ℕ) (perm : List Int) (i : ℕ)
    (hmem : i ∈ evenLostSlots count lost) (hlen : i < perm.length) :
    (forceLost count lost perm).getD i 0 = -1 := by
  induction lost generalizing count perm with
  | nil => simp [evenLostSlots] at hmem
  | cons l ls ih =>
    rw [forceLost]
    by_cases hc : count % 2 = 0
    · rw [evenLostSlots, if_pos hc] at hmem
      rw [if_pos hc]
      rcases List.mem_cons.1 hmem with rfl | hmem2
      · rcases forceLost_getD_or (count + 1) ls (perm.set ((l - 1) / 3) (-1))
          ((l - 1) / 3) with h | h
        · exact h
        · rw [h]
          exact getD_set_self perm ((l - 1) / 3) (-1) hlen
      · exact ih (count + 1) (perm.set ((l - 1) / 3) (-1)) hmem2
          (by simpa using hlen)
    · rw [evenLostSlots, if_neg hc] at hmem
      rw [if_neg hc]
      exact ih (count + 1) perm hmem hlen

/-- Every entry of the forced permutation is the sentinel or one of the
original entries. -/
lemma mem_forceLost (count : ℕ) (lost : List ℕ) (perm : List Int) (v : Int)
    (hv : v ∈ forceLost count lost perm) : v = -1 ∨ v ∈ perm := by
  induction lost generalizing count perm with
  | nil => right; exact hv
  | cons l ls ih =>
    rw [forceLost] at hv
    by_cases hc : count % 2 = 0
    · rw [if_pos hc] at hv
      rcases ih (count + 1) (perm.set ((l - 1) / 3) (-1)) hv with h | h
      · left; exact h
      · rcases List.mem_or_eq_of_mem_set h with h2 | h2
        · right; exact h2
        · left; exact h2
    · rw [if_neg hc] at hv
      exact ih (count + 1) perm hv

/-- On a permutation whose entries are all at least -1, the negative
entries are exactly the entries equal to -1. -/
lemma filter_neg_eq (p : List Int) (h : ∀ v ∈ p, (-1 : Int) ≤ v) :
    p.filter (fun v => decide (v = -1)) = p.filter (fun v => decide (v < 0)) := by
  apply List.filter_congr
  intro a ha
  have := h a ha
  simp only [decide_eq_decide]
  omega

/-- C5: Every permutation stored in perm_indexes_assumption by
make_assumption has exactly lost.size() / 2 entries equal to the sentinel
-1 (given that enumerated permutations hold only jet indexes and the
sentinel, i.e. entries at least -1), the slots designated lost at even
positions of the callers list are forced to the sentinel, and permutations
whose sentinel count differs from the assumed lost count never enter the
list. -/
theorem make_assumption_sentinel_count (accept : List Int → Bool)
    (lost : List ℕ) (perms : List (List Int))
    (hent : ∀ q ∈ perms, ∀ v ∈ q, (-1 : Int) ≤ v)
    (p : List Int) (hp : p ∈ makeAssumptionPerms accept lost perms) :
    (p.filter (fun v => decide (v = -1))).length = lost.length / 2 ∧
      ∀ i ∈ evenLostSlots 0 lost, i < p.length → p.getD i 0 = -1 := by
  obtain ⟨hmem, hcond⟩ := List.mem_filter.1 hp
  obtain ⟨q, hq, rfl⟩ := List.mem_map.1 hmem
  have hcount : countNegatives (forceLost 0 lost q) = lost.length / 2 := by
    simp only [Bool.and_eq_true, decide_eq_true_eq] at hcond
    exact hcond.1
  have hge : ∀ v ∈ forceLost 0 lost q, (-1 : Int) ≤ v := by
    intro v hv
    rcases mem_forceLost 0 lost q v hv with h | h
    · omega
    · exact hent q hq v h
  refine ⟨?_, ?_⟩
  · rw [filter_neg_eq _ hge]
    exact hcount
  · intro i hi hilen
    exact forceLost_evenSlot 0 lost q i hi
      (by rw [← forceLost_length 0 lost q]; exact hilen)

/-- Witness for C5: two lost variable codes 4 and 5 (one lost object, slot
(4-1)/3 = 1), pruning accepting everything, one enumerated permutation
[0, 1, 2, 3].  The stored permutation [0, -1, 2, 3] has one sentinel and
slot 1 forced to -1. -/
theorem make_assumption_sentinel_count_w :
    ([0, -1, 2, 3] : List Int) ∈
        makeAssumptionPerms (fun _ => true) [4, 5] [[0, 1, 2, 3]] ∧
      (([0, -1, 2, 3] : List Int).filter (fun v => decide (v = -1))).length = 1 ∧
      ([0, -1, 2, 3] : List Int).getD 1 0 = -1 := by
  have h := make_assumption_sentinel_count (fun _ => true) [4, 5] [[0, 1, 2, 3]]
    (by decide) [0, -1, 2, 3] (by decide)
  exact ⟨by decide, h.1, h.2 1 (by decide) (by decide)⟩

/-- C6 counterexample: six jets, each with q-window width 2 and b-window
width 2, and the identity permutation with no sentinel.  The cached
constant computed by the code is 2 * 2 = 4 (only the q1 and b slots
contribute; hypothesis TTH), while the product over all real-jet slots
demanded by the claim is 2^6 = 64, so the claim is false as stated. -/
theorem permutation_constant_all_slots_claim_false :
    getPermutationConstants FinalState.LH Hypothesis.TTH
        [⟨0, 2, 0, 2⟩, ⟨0, 2, 0, 2⟩, ⟨0, 2, 0, 2⟩,
         ⟨0, 2, 0, 2⟩, ⟨0, 2, 0, 2⟩, ⟨0, 2, 0, 2⟩]
        [0, 1, 2, 3, 4, 5] = 4 ∧
      specClaimedConstLH
        [⟨0, 2, 0, 2⟩, ⟨0, 2, 0, 2⟩, ⟨0, 2, 0, 2⟩,
         ⟨0, 2, 0, 2⟩, ⟨0, 2, 0, 2⟩, ⟨0, 2, 0, 2⟩]
        [0, 1, 2, 3, 4, 5] = 64 ∧ (4 : ℝ) ≠ 64 := by
  refine ⟨?_, ?_, by norm_num⟩
  · have h : getPermutationConstants FinalState.LH Hypothesis.TTH
        [⟨0, 2, 0, 2⟩, ⟨0, 2, 0, 2⟩, ⟨0, 2, 0, 2⟩,
         ⟨0, 2, 0, 2⟩, ⟨0, 2, 0, 2⟩, ⟨0, 2, 0, 2⟩]
        [0, 1, 2, 3, 4, 5] = ((2 : ℝ) - 0) * ((2 : ℝ) - 0) * 1 := rfl
    rw [h]; norm_num
  · have h : specClaimedConstLH
        [⟨0, 2, 0, 2⟩, ⟨0, 2, 0, 2⟩, ⟨0, 2, 0, 2⟩,
         ⟨0, 2, 0, 2⟩, ⟨0, 2, 0, 2⟩, ⟨0, 2, 0, 2⟩]
        [0, 1, 2, 3, 4, 5] =
        ((2 : ℝ) - 0) * (((2 : ℝ) - 0) * (((2 : ℝ) - 0) * (((2 : ℝ) - 0) *
          (((2 : ℝ) - 0) * (((2 : ℝ) - 0) * 1))))) := rfl
    rw [h]; norm_num

/-- C6 (amended): the cached permutation constant is the product of the
resolution window widths over the energy-parameterized slots only (for LH
the q1 slot's q window and the b slot's b window, plus the bbar slot's b
window under TTBB; analogously for LL and HH), not over every slot
assigned to a real jet; it is strictly positive whenever the looked-up
window widths are positive. -/
theorem permutation_constant_formula (fs : FinalState) (hy : Hypothesis)
    (jets : List Jet) (perm : List Int)
    (hw : ∀ pos, 0 < widthQ (jetAt jets perm pos) ∧
      0 < widthB (jetAt jets perm pos)) :
    0 < getPermutationConstants fs hy jets perm ∧
      getPermutationConstants FinalState.LH hy jets perm =
        widthQ (jetAt jets perm 0) * widthB (jetAt jets perm 4) *
          (if hy = Hypothesis.TTBB then widthB (jetAt jets perm 5) else 1) ∧
      getPermutationConstants FinalState.LL hy jets perm =
        widthB (jetAt jets perm 2) *
          (if hy = Hypothesis.TTBB then widthB (jetAt jets perm 3) else 1) := by
  have hif : ∀ x : ℝ, 0 < x → 0 < (if hy = Hypothesis.TTBB then x else 1) := by
    intro x hx
    by_cases h : hy = Hypothesis.TTBB
    · simpa [h] using hx
    · simp [h]
  refine ⟨?_, rfl, rfl⟩
  cases fs with
  | LH =>
    exact mul_pos (mul_pos (hw 0).1 (hw 4).2) (hif _ (hw 5).2)
  | LL =>
    exact mul_pos (hw 2).2 (hif _ (hw 3).2)
  | HH =>
    exact mul_pos (mul_pos (mul_pos (hw 0).1 (hw 3).1) (hw 6).2)
      (hif _ (hw 7).2)
  | TTH => norm_num [getPermutationConstants]
  | Undefined => norm_num [getPermutationConstants]

/-- Witness for C6 at a single jet with q width 2 and b width 3 (every
lookup lands on it): the cached constant is positive. -/
theorem permutation_constant_formula_w :
    0 < getPermutationConstants FinalState.LH Hypothesis.TTH [⟨0, 2, 0, 3⟩] [] := by
  have hw : ∀ pos, 0 < widthQ (jetAt [⟨0, 2, 0, 3⟩] [] pos) ∧
      0 < widthB (jetAt [⟨0, 2, 0, 3⟩] [] pos) := by
    intro pos
    constructor <;> norm_num [jetAt, widthQ, widthB]
  exact (permutation_constant_formula FinalState.LH Hypothesis.TTH
    [⟨0, 2, 0, 3⟩] [] hw).1

/-- Magnitude of a vector along the positive x axis. -/
lemma vecMag3_xaxis (x : ℝ) (hx : 0 ≤ x) : vecMag3 x 0 0 = x := by
  unfold vecMag3
  rw [show x ^ 2 + 0 ^ 2 + 0 ^ 2 = x ^ 2 by ring]
  exact Real.sqrt_sq hx

/-- Magnitude of a vector along the negative x axis. -/
lemma vecMag3_neg_xaxis (x : ℝ) (hx : 0 ≤ x) : vecMag3 (-x) 0 0 = x := by
  unfold vecMag3
  rw [show (-x) ^ 2 + 0 ^ 2 + 0 ^ 2 = x ^ 2 by ring]
  exact Real.sqrt_sq hx

/-- Velocity of the parent (3, 0, 0; 5). -/
lemma beta_350 : LV.beta ⟨3, 0, 0, 5⟩ = 3 / 5 := by
  show vecMag3 3 0 0 / 5 = 3 / 5
  rw [vecMag3_xaxis 3 (by norm_num)]

/-- Velocity of the parent (4, 0, 0; 5). -/
lemma beta_450 : LV.beta ⟨4, 0, 0, 5⟩ = 4 / 5 := by
  show vecMag3 4 0 0 / 5 = 4 / 5
  rw [vecMag3_xaxis 4 (by norm_num)]

/-- Cosine between (3, 0, 0; 5) and the negative x direction. -/
lemma cosAngle_cexA : cosAngle ⟨3, 0, 0, 5⟩ ⟨-1, 0, 0⟩ = -1 := by
  show (3 * -1 + 0 * 0 + 0 * 0) / (vecMag3 3 0 0 * vecMag3 (-1) 0 0) = -1
  rw [vecMag3_xaxis 3 (by norm_num),
    show ((-1 : ℝ)) = -(1 : ℝ) from rfl, vecMag3_neg_xaxis 1 (by norm_num)]
  norm_num

/-- Cosine between (4, 0, 0; 5) and the positive x direction. -/
lemma cosAngle_cexB : cosAngle ⟨4, 0, 0, 5⟩ ⟨1, 0, 0⟩ = 1 := by
  show (4 * 1 + 0 * 0 + 0 * 0) / (vecMag3 4 0 0 * vecMag3 1 0 0) = 1
  rw [vecMag3_xaxis 4 (by norm_num), vecMag3_xaxis 1 (by norm_num)]
  norm_num

/-- Cosine between (3, 0, 0; 5) and the positive x direction. -/
lemma cosAngle_cexC4 : cosAngle ⟨3, 0, 0, 5⟩ ⟨1, 0, 0⟩ = 1 := by
  show (3 * 1 + 0 * 0 + 0 * 0) / (vecMag3 3 0 0 * vecMag3 1 0 0) = 1
  rw [vecMag3_xaxis 3 (by norm_num), vecMag3_xaxis 1 (by norm_num)]
  norm_num

/-- Cosine between (3, 0, 0; 5) and the y direction. -/
lemma cosAngle_cexC3 : cosAngle ⟨3, 0, 0, 5⟩ ⟨0, 1, 0⟩ = 0 := by
  show (3 * 0 + 0 * 1 + 0 * 0) / (vecMag3 3 0 0 * vecMag3 0 1 0) = 0
  norm_num

/-- Dimensionless coefficient a at the first C2 counterexample input. -/
lemma coeffA_cexA : solveCoeffA ⟨3, 0, 0, 5⟩ 20 5 = 4 / 5 := by
  show (20 / (5 : ℝ)) / 5 = 4 / 5
  norm_num

/-- Rescaled coefficient b at the first C2 counterexample input. -/
lemma coeffB_cexA : solveCoeffB ⟨3, 0, 0, 5⟩ ⟨-1, 0, 0⟩ = -(3 / 5) := by
  show cosAngle ⟨3, 0, 0, 5⟩ ⟨-1, 0, 0⟩ * LV.beta ⟨3, 0, 0, 5⟩ = -(3 / 5)
  rw [cosAngle_cexA, beta_350]
  norm_num

/-- Dimensionless coefficient a at the second C2 counterexample input. -/
lemma coeffA_cexB : solveCoeffA ⟨4, 0, 0, 5⟩ (75 / 2) 10 = 3 / 4 := by
  show (75 / 2 / (5 : ℝ)) / 10 = 3 / 4
  norm_num

/-- Rescaled coefficient b at the second C2 counterexample input. -/
lemma coeffB_cexB : solveCoeffB ⟨4, 0, 0, 5⟩ ⟨1, 0, 0⟩ = 4 / 5 := by
  show cosAngle ⟨4, 0, 0, 5⟩ ⟨1, 0, 0⟩ * LV.beta ⟨4, 0, 0, 5⟩ = 4 / 5
  rw [cosAngle_cexB, beta_450]
  norm_num

/-- Dimensionless coefficient a at the C4 witness input. -/
lemma coeffA_cexC4 : solveCoeffA ⟨3, 0, 0, 5⟩ 25 5 = 1 := by
  show (25 / (5 : ℝ)) / 5 = 1
  norm_num

/-- Rescaled coefficient b at the C4 witness input. -/
lemma coeffB_cexC4 : solveCoeffB ⟨3, 0, 0, 5⟩ ⟨1, 0, 0⟩ = 3 / 5 := by
  show cosAngle ⟨3, 0, 0, 5⟩ ⟨1, 0, 0⟩ * LV.beta ⟨3, 0, 0, 5⟩ = 3 / 5
  rw [cosAngle_cexC4, beta_350]
  norm_num

/-- Larger root at a = 4/5, b = -3/5 (degenerate discriminant). -/
lemma gP_cexA : gP (4 / 5) (-(3 / 5)) = 5 / 4 := by
  unfold gP
  rw [show ((4 : ℝ) / 5) ^ 2 + (-(3 / 5)) ^ 2 - 1 = 0 by norm_num,
    Real.sqrt_zero]
  norm_num

/-- Smaller root at a = 4/5, b = -3/5 (degenerate discriminant). -/
lemma gM_cexA : gM (4 / 5) (-(3 / 5)) = 5 / 4 := by
  unfold gM
  rw [show ((4 : ℝ) / 5) ^ 2 + (-(3 / 5)) ^ 2 - 1 = 0 by norm_num,
    Real.sqrt_zero]
  norm_num

/-- Larger root at a = 3/4, b = 4/5. -/
lemma gP_cexB : gP (3 / 4) (4 / 5) = 37 / 12 := by
  unfold gP
  rw [show ((3 : ℝ) / 4) ^ 2 + ((4 : ℝ) / 5) ^ 2 - 1 = (9 / 20) ^ 2 by norm_num,
    Real.sqrt_sq (by norm_num : (0 : ℝ) ≤ 9 / 20),
    abs_of_pos (by norm_num : (0 : ℝ) < 4 / 5)]
  norm_num

/-- Smaller root at a = 3/4, b = 4/5. -/
lemma gM_cexB : gM (3 / 4) (4 / 5) = 13 / 12 := by
  unfold gM
  rw [show ((3 : ℝ) / 4) ^ 2 + ((4 : ℝ) / 5) ^ 2 - 1 = (9 / 20) ^ 2 by norm_num,
    Real.sqrt_sq (by norm_num : (0 : ℝ) ≤ 9 / 20),
    abs_of_pos (by norm_num : (0 : ℝ) < 4 / 5)]
  norm_num

/-- Replaced smaller root at a = 3/4, b = 4/5: the smaller root is already
physical, so it is kept. -/
lemma gMrep_cexB : gMrep (3 / 4) (4 / 5) = 13 / 12 := by
  unfold gMrep
  rw [gM_cexB, if_neg (by norm_num : ¬ ((13 : ℝ) / 12 < 1))]

/-- Larger root at a = 1, b = 3/5. -/
lemma gP_cexC4 : gP 1 (3 / 5) = 17 / 8 := by
  unfold gP
  rw [show (1 : ℝ) ^ 2 + ((3 : ℝ) / 5) ^ 2 - 1 = (3 / 5) ^ 2 by norm_num,
    Real.sqrt_sq (by norm_num : (0 : ℝ) ≤ 3 / 5),
    abs_of_pos (by norm_num : (0 : ℝ) < 3 / 5)]
  norm_num

/-- solve at the first C2 counterexample input: the b < 0, discriminant < 0
path rejects even though both roots are physical. -/
lemma solve_eval_cexA :
    solve ⟨3, 0, 0, 5⟩ 20 5 ⟨-1, 0, 0⟩ 0 = (noSolution, true) := by
  unfold solve
  rw [if_neg (by norm_num : ¬ ((5 : ℝ) < 1 / 1000)), coeffA_cexA, coeffB_cexA]
  unfold solveMassive
  rw [if_neg (by norm_num :
      ¬ (((4 : ℝ) / 5) ^ 2 + (-(3 / 5)) ^ 2 - 1 < 0)),
    if_neg (by rw [gP_cexA]; norm_num : ¬ (gP (4 / 5) (-(3 / 5)) < 1)),
    if_neg (by norm_num : ¬ ((0 : ℝ) < -(3 / 5))),
    if_neg (by unfold discrD; norm_num :
      ¬ ((0 : ℝ) < discrD (4 / 5) (-(3 / 5))))]

/-- solve at the second C2 counterexample input: the closest-root tie-break
compares the target with the dimensionless roots, not with root times M,
and here selects the larger root. -/
lemma solve_eval_cexB :
    solve ⟨4, 0, 0, 5⟩ (75 / 2) 10 ⟨1, 0, 0⟩ 3 = (37 / 12 * 10, false) := by
  unfold solve
  rw [if_neg (by norm_num : ¬ ((10 : ℝ) < 1 / 1000)), coeffA_cexB, coeffB_cexB]
  unfold solveMassive
  rw [if_neg (by norm_num :
      ¬ (((3 : ℝ) / 4) ^ 2 + ((4 : ℝ) / 5) ^ 2 - 1 < 0)),
    if_neg (by rw [gP_cexB]; norm_num : ¬ (gP (3 / 4) (4 / 5) < 1)),
    if_pos (by norm_num : (0 : ℝ) < 4 / 5),
    if_pos (by unfold discrD; norm_num : discrD (3 / 4) (4 / 5) < 0),
    if_pos ?_, gP_cexB]
  rw [gP_cexB, gMrep_cexB,
    show (3 : ℝ) - 37 / 12 = -(1 / 12) by norm_num,
    show (3 : ℝ) - 13 / 12 = 23 / 12 by norm_num, abs_neg,
    abs_of_pos (by norm_num : (0 : ℝ) < 1 / 12),
    abs_of_pos (by norm_num : (0 : ℝ) < 23 / 12)]
  norm_num

/-- solve at the C4 witness input: b > 0 with vanishing discriminant, the
larger root 17/8 is selected and scaled by the mass. -/
lemma solve_eval_cexC4 :
    solve ⟨3, 0, 0, 5⟩ 25 5 ⟨1, 0, 0⟩ 100 = (17 / 8 * 5, false) := by
  unfold solve
  rw [if_neg (by norm_num : ¬ ((5 : ℝ) < 1 / 1000)), coeffA_cexC4, coeffB_cexC4]
  unfold solveMassive
  rw [if_neg (by norm_num :
      ¬ ((1 : ℝ) ^ 2 + ((3 : ℝ) / 5) ^ 2 - 1 < 0)),
    if_neg (by rw [gP_cexC4]; norm_num : ¬ (gP 1 (3 / 5) < 1)),
    if_pos (by norm_num : (0 : ℝ) < 3 / 5),
    if_neg (by unfold discrD; norm_num : ¬ (discrD 1 (3 / 5) < 0)),
    gP_cexC4]

/-- C2 counterexample: the claim (spec closest-root rule) fails at two
concrete massive inputs.  At the first (a = 4/5, b = -3/5, both roots equal
to 5/4 and the discriminant negative) the code rejects instead of returning
the closest root, because the closest-root selection only runs when b > 0.
At the second (a = 3/4, b = 4/5, roots 37/12 and 13/12, M = 10, target 3)
the code returns 37/12 * 10 because it compares the target against the
dimensionless roots, while the claimed comparison against root * M would
pick 13/12 * 10. -/
theorem solve_massive_closest_root_claim_false :
    ¬ specClosestRootClaim ⟨3, 0, 0, 5⟩ 20 5 ⟨-1, 0, 0⟩ 0 ∧
      ¬ specClosestRootClaim ⟨4, 0, 0, 5⟩ (75 / 2) 10 ⟨1, 0, 0⟩ 3 := by
  constructor
  · intro h
    unfold specClosestRootClaim at h
    rw [coeffA_cexA, coeffB_cexA] at h
    have h2 := h ⟨by rw [gM_cexA]; norm_num, by rw [gP_cexA]; norm_num,
      by unfold discrD; norm_num⟩
    rw [solve_eval_cexA] at h2
    have h3 := congrArg Prod.snd h2
    simp at h3
  · intro h
    unfold specClosestRootClaim at h
    rw [coeffA_cexB, coeffB_cexB] at h
    have h2 := h ⟨by rw [gM_cexB]; norm_num, by rw [gP_cexB]; norm_num,
      by unfold discrD; norm_num⟩
    rw [solve_eval_cexB] at h2
    have h3 := congrArg Prod.fst h2
    rw [gP_cexB, gM_cexB] at h3
    rw [if_neg ?_] at h3
    · norm_num at h3
    · rw [show (3 : ℝ) - 37 / 12 * 10 = -(167 / 6) by norm_num,
        show (3 : ℝ) - 13 / 12 * 10 = -(47 / 6) by norm_num, abs_neg, abs_neg,
        abs_of_pos (by norm_num : (0 : ℝ) < 167 / 6),
        abs_of_pos (by norm_num : (0 : ℝ) < 47 / 6)]
      norm_num

/-- C2 (amended): in the massive branch (with the rescaled dimensionless
coefficients a and b), on the non-rejecting preconditions a^2+b^2-1 >= 0
and g+ >= 1, root selection is: for b > 0 with negative discriminant,
whichever of the dimensionless roots g+ and the replaced g- is closer to
the target (the comparison is dimensionless, the result then scaled by M);
for b > 0 with nonnegative discriminant, g+ * M; for b <= 0 the replaced
g- times M only when the discriminant is positive, otherwise reject with
the no-solution sentinel (even when both roots are physical). -/
theorem solve_massive_root_selection (p4 : LV) (DM2 M : ℝ) (e : V3)
    (target : ℝ) (hM : ¬ M < 1 / 1000)
    (h0 : ¬ (solveCoeffA p4 DM2 M ^ 2 + solveCoeffB p4 e ^ 2 - 1 < 0))
    (h1 : ¬ (gP (solveCoeffA p4 DM2 M) (solveCoeffB p4 e) < 1)) :
    (0 < solveCoeffB p4 e →
      discrD (solveCoeffA p4 DM2 M) (solveCoeffB p4 e) < 0 →
      solve p4 DM2 M e target =
        (if |target - gP (solveCoeffA p4 DM2 M) (solveCoeffB p4 e)| <
            |target - gMrep (solveCoeffA p4 DM2 M) (solveCoeffB p4 e)|
         then gP (solveCoeffA p4 DM2 M) (solveCoeffB p4 e) * M
         else gMrep (solveCoeffA p4 DM2 M) (solveCoeffB p4 e) * M, false)) ∧
    (0 < solveCoeffB p4 e →
      ¬ discrD (solveCoeffA p4 DM2 M) (solveCoeffB p4 e) < 0 →
      solve p4 DM2 M e target =
        (gP (solveCoeffA p4 DM2 M) (solveCoeffB p4 e) * M, false)) ∧
    (¬ 0 < solveCoeffB p4 e →
      0 < discrD (solveCoeffA p4 DM2 M) (solveCoeffB p4 e) →
      solve p4 DM2 M e target =
        (gMrep (solveCoeffA p4 DM2 M) (solveCoeffB p4 e) * M, false)) ∧
    (¬ 0 < solveCoeffB p4 e →
      ¬ 0 < discrD (solveCoeffA p4 DM2 M) (solveCoeffB p4 e) →
      solve p4 DM2 M e target = (noSolution, true)) := by
  unfold solve
  rw [if_neg hM]
  unfold solveMassive
  rw [if_neg h0, if_neg h1]
  refine ⟨?_, ?_, ?_, ?_⟩
  · intro hb hd
    rw [if_pos hb, if_pos hd]
  · intro hb hd
    rw [if_pos hb, if_neg hd]
  · intro hb hd
    rw [if_neg hb, if_pos hd]
  · intro hb hd
    rw [if_neg hb, if_neg hd]

/-- Witness for C2 at the massive input with a = 3/4, b = 4/5 (all three
hypotheses hold there) applying the first selection clause. -/
theorem solve_massive_root_selection_w :
    ¬ ((10 : ℝ) < 1 / 1000) ∧
      (solve ⟨4, 0, 0, 5⟩ (75 / 2) 10 ⟨1, 0, 0⟩ 3).2 = false := by
  have h0 : ¬ (solveCoeffA ⟨4, 0, 0, 5⟩ (75 / 2) 10 ^ 2 +
      solveCoeffB ⟨4, 0, 0, 5⟩ ⟨1, 0, 0⟩ ^ 2 - 1 < 0) := by
    rw [coeffA_cexB, coeffB_cexB]
    norm_num
  have h1 : ¬ (gP (solveCoeffA ⟨4, 0, 0, 5⟩ (75 / 2) 10)
      (solveCoeffB ⟨4, 0, 0, 5⟩ ⟨1, 0, 0⟩) < 1) := by
    rw [coeffA_cexB, coeffB_cexB, gP_cexB]
    norm_num
  have h := solve_massive_root_selection ⟨4, 0, 0, 5⟩ (75 / 2) 10 ⟨1, 0, 0⟩ 3
    (by norm_num) h0 h1
  have hb : 0 < solveCoeffB ⟨4, 0, 0, 5⟩ ⟨1, 0, 0⟩ := by
    rw [coeffB_cexB]
    norm_num
  have hd : discrD (solveCoeffA ⟨4, 0, 0, 5⟩ (75 / 2) 10)
      (solveCoeffB ⟨4, 0, 0, 5⟩ ⟨1, 0, 0⟩) < 0 := by
    rw [coeffA_cexB, coeffB_cexB]
    unfold discrD
    norm_num
  exact ⟨by norm_num, by rw [h.1 hb hd]⟩

/-- C3 counterexample: at the massless input P = (3, 0, 0; 5), DM2 = 10,
M = 1/2000, direction along y, the code returns 2 = (DM2 / P.E) / (1 - cos)
while the claimed coefficients a = DM2 / (P.E * M) and b = cos * beta give
4000; the massless branch does not divide a by M nor rescale b by the
velocity. -/
theorem solve_massless_spec_coefficients_false :
    solve ⟨3, 0, 0, 5⟩ 10 (1 / 2000) ⟨0, 1, 0⟩ 0 = (2, false) ∧
      specMasslessValue ⟨3, 0, 0, 5⟩ 10 (1 / 2000) ⟨0, 1, 0⟩ = 4000 ∧
      (2 : ℝ) ≠ 4000 := by
  refine ⟨?_, ?_, by norm_num⟩
  · unfold solve
    rw [if_pos (by norm_num : (1 : ℝ) / 2000 < 1 / 1000),
      show solveB ⟨3, 0, 0, 5⟩ ⟨0, 1, 0⟩ = 0 from cosAngle_cexC3,
      if_pos (by norm_num : (0 : ℝ) < 1),
      show solveA ⟨3, 0, 0, 5⟩ 10 = 2 by
        show (10 : ℝ) / 5 = 2
        norm_num,
      show (2 : ℝ) / (1 - 0) = 2 by norm_num]
  · unfold specMasslessValue
    rw [cosAngle_cexC3]
    show ((10 : ℝ) / (5 * (1 / 2000))) / (1 - 0 * LV.beta ⟨3, 0, 0, 5⟩) = 4000
    norm_num

/-- C3 (amended): for a massless daughter (M below the 1e-3 threshold),
with the coefficients the code actually uses in this branch, a = DM2 / P.E
and b = cos(angle(P, e)) (no division by M, no velocity factor), solve
returns exactly a / (1 - b) without rejecting when b < 1, and sets the
reject flag returning the no-solution sentinel when b >= 1. -/
theorem solve_massless_branch (p4 : LV) (DM2 M : ℝ) (e : V3) (target : ℝ)
    (hM : M < 1 / 1000) :
    (solveB p4 e < 1 →
      solve p4 DM2 M e target =
        (solveA p4 DM2 / (1 - solveB p4 e), false)) ∧
    (1 ≤ solveB p4 e → solve p4 DM2 M e target = (noSolution, true)) := by
  constructor
  · intro h
    unfold solve
    rw [if_pos hM, if_pos h]
  · intro h
    unfold solve
    rw [if_pos hM, if_neg (not_lt.2 h)]

/-- Witness for C3 at M = 1/2000 with b = 0 < 1: the first branch of the
theorem applies. -/
theorem solve_massless_branch_w :
    ((1 : ℝ) / 2000 < 1 / 1000) ∧
      solve ⟨3, 0, 0, 5⟩ 10 (1 / 2000) ⟨0, 1, 0⟩ 0 =
        (solveA ⟨3, 0, 0, 5⟩ 10 / (1 - solveB ⟨3, 0, 0, 5⟩ ⟨0, 1, 0⟩), false) := by
  refine ⟨by norm_num, ?_⟩
  exact (solve_massless_branch ⟨3, 0, 0, 5⟩ 10 (1 / 2000) ⟨0, 1, 0⟩ 0
    (by norm_num)).1
    (by rw [show solveB ⟨3, 0, 0, 5⟩ ⟨0, 1, 0⟩ = 0 from cosAngle_cexC3]; norm_num)

/-- Any non-rejecting outcome of the massive branch is a root at least 1
scaled by the mass. -/
lemma solveMassive_ge (a b M target : ℝ) (hMpos : 0 < M)
    (hok : (solveMassive a b M target).2 = false) :
    M ≤ (solveMassive a b M target).1 := by
  unfold solveMassive at hok ⊢
  by_cases c1 : a ^ 2 + b ^ 2 - 1 < 0
  · rw [if_pos c1] at hok
    simp at hok
  · rw [if_neg c1] at hok ⊢
    by_cases c2 : gP a b < 1
    · rw [if_pos c2] at hok
      simp at hok
    · rw [if_neg c2] at hok ⊢
      push_neg at c2
      have hrep : 1 ≤ gMrep a b := by
        unfold gMrep
        by_cases h : gM a b < 1
        · rw [if_pos h]
          exact c2
        · rw [if_neg h]
          exact not_lt.1 h
      by_cases c3 : 0 < b
      · rw [if_pos c3]
        simp only
        by_cases c4 : discrD a b < 0
        · rw [if_pos c4]
          by_cases c5 : |target - gP a b| < |target - gMrep a b|
          · rw [if_pos c5]
            exact le_mul_of_one_le_left hMpos.le c2
          · rw [if_neg c5]
            exact le_mul_of_one_le_left hMpos.le hrep
        · rw [if_neg c4]
          exact le_mul_of_one_le_left hMpos.le c2
      · rw [if_neg c3] at hok ⊢
        by_cases c4 : 0 < discrD a b
        · rw [if_pos c4]
          simp only
          exact le_mul_of_one_le_left hMpos.le hrep
        · rw [if_neg c4] at hok
          simp at hok

/-- C4: Whenever the massive branch of solve (daughter mass at or above the
1e-3 threshold) returns without setting the reject flag, the returned
energy is at least the daughter rest mass M: the larger root below 1
rejects, an unphysical smaller root is replaced by the larger one before
selection, and every selected dimensionless root is at least 1. -/
theorem solve_massive_energy_above_mass (p4 : LV) (DM2 M : ℝ) (e : V3)
    (target : ℝ) (hM : ¬ M < 1 / 1000)
    (hok : (solve p4 DM2 M e target).2 = false) :
    M ≤ (solve p4 DM2 M e target).1 := by
  have hMpos : 0 < M := by
    have h2 := not_lt.1 hM
    linarith
  unfold solve at hok ⊢
  rw [if_neg hM] at hok ⊢
  exact solveMassive_ge _ _ _ _ hMpos hok

/-- Witness for C4 at P = (3, 0, 0; 5), DM2 = 25, M = 5, direction along x:
the call succeeds (returning 17/8 * 5) and the returned energy is at least
the rest mass 5. -/
theorem solve_massive_energy_above_mass_w :
    ¬ ((5 : ℝ) < 1 / 1000) ∧
      (solve ⟨3, 0, 0, 5⟩ 25 5 ⟨1, 0, 0⟩ 100).2 = false ∧
      5 ≤ (solve ⟨3, 0, 0, 5⟩ 25 5 ⟨1, 0, 0⟩ 100).1 := by
  refine ⟨by norm_num, by rw [solve_eval_cexC4], ?_⟩
  exact solve_massive_energy_above_mass ⟨3, 0, 0, 5⟩ 25 5 ⟨1, 0, 0⟩ 100
    (by norm_num) (by rw [solve_eval_cexC4])

end MEMSpec
